import Mathlib

/-!
Verification of the subtitle pipeline in src/translate/ja2zh_subtitles.py:
the two-stage cache-then-compute flow (Whisper transcription cache,
LLM translation cache), the batched translation strategy, and the
startup/credential handling of main.

Times are modeled abstractly as natural numbers: the claims under
verification never inspect time values, only that they are carried
through the pipeline unchanged, which holds for any time representation.
External effects (the Whisper transcription result, each LLM reply) are
modeled as explicit oracle inputs; the on-disk JSON caches are modeled
as finite maps passed in and returned.
-/

/-- Configuration constant MODEL_NAME from the source. -/
def MODEL_NAME : String := "large"

/-- Configuration constant GPT_MODEL from the source. -/
def GPT_MODEL : String := "deepseek/deepseek-chat"

/-- Configuration constant BATCH_SIZE from the source. -/
def BATCH_SIZE : Nat := 15

/-- One raw Whisper segment, as stored in the transcript cache:
start time, end time, untrimmed text. -/
structure Segment where
  start : Nat
  stop : Nat
  text : String
deriving DecidableEq, Repr

/-- One subtitle line (a pysrt SubRipItem): 1-based index, start and end
times, text. -/
structure SubItem where
  index : Nat
  start : Nat
  stop : Nat
  text : String
deriving DecidableEq, Repr

/-- The translation cache: a JSON object mapping stringified line index to
translated text, modeled as a function map. -/
abbrev TMap := String → Option String

/-- Empty translation cache. -/
def TMap.empty : TMap := fun _ => none

/-- Dict assignment cache_data[sid] = v, overwriting any prior entry. -/
def TMap.update (c : TMap) (k : String) (v : String) : TMap :=
  fun q => if q = k then some v else c q

/-- A JSON value in a parsed LLM reply: a string, or anything else. -/
inductive JVal where
  | str (s : String)
  | other
deriving DecidableEq, Repr

/-- One parsed LLM reply for a batch when it is a JSON object, as the
dict lookup used by the per-item check: lookup by stringified index.
A key absent from the reply object maps to none; a key bound to a
non-string JSON value maps to some JVal.other.  A request that raised or
whose content failed to parse is the reply mapping every key to none
(translated_batch = \x7b\x7d in the source).  A reply body that parses
to valid non-object JSON is NOT representable here; PyReply below covers
that case, where the per-item processing raises instead. -/
abbrev TReply := String → Option JVal

/-- Stringified line index str(item["id"]), the key used in both the
request payload and the translation cache. -/
def skey (it : SubItem) : String := toString it.index

/-- Failure marker substituted when the reply lacks a usable string for a
line: the literal prefix from the source followed by the original text. -/
def failText (t : String) : String := "[翻译失败] " ++ t

/-- Final text chosen for one line of a freshly translated batch: the
reply value when it is a string, the failure marker otherwise. -/
def batchFinal (reply : TReply) (it : SubItem) : String :=
  match reply (skey it) with
  | some (JVal.str s) => s
  | _ => failText it.text

/-- The batch_needs_translation flag: true when some line of the batch has
no entry in the translation cache. -/
def needsTranslation (c : TMap) (batch : List SubItem) : Bool :=
  batch.any fun it => (c (skey it)).isNone

/-- The structured request payload source_dict: stringified index paired
with source text, for every item of the batch. -/
def sourceDict (batch : List SubItem) : List (String × String) :=
  batch.map fun it => (skey it, it.text)

/-- State threaded through the batch loop of translate_with_cache:
the in-memory cache_data dict (kept in sync with the cache file, which
is rewritten after every fresh batch), the translated_subs accumulator,
and the list of request payloads issued so far. -/
structure TState where
  cache : TMap
  output : List SubItem
  requests : List (List (String × String))

/-- Body of the batch loop of translate_with_cache for one batch.
If every line is cached, each line is emitted with its cached text and
nothing else changes; otherwise one request carrying sourceDict is
issued, every line of the batch is written back to the cache with its
reply value or failure marker, and the lines are emitted with those
texts. -/
def stepBatch (reply : TReply) (st : TState) (batch : List SubItem) : TState :=
  if needsTranslation st.cache batch then
    { cache := batch.foldl (fun c it => TMap.update c (skey it) (batchFinal reply it)) st.cache,
      output := st.output ++ batch.map (fun it => { it with text := batchFinal reply it }),
      requests := st.requests ++ [sourceDict batch] }
  else
    { st with
      output := st.output ++ batch.map (fun it => { it with text := (st.cache (skey it)).getD "" }) }

/-- Number of batches: ceil(n / b), as computed by the source
((len(all_items) + BATCH_SIZE - 1) // BATCH_SIZE). -/
def numBatches (b n : Nat) : Nat := (n + b - 1) / b

/-- The contiguous batches all_items[i : i + b] for i in range(0, len, b). -/
def chunks {α : Type} (b : Nat) (l : List α) : List (List α) :=
  (List.range (numBatches b l.length)).map fun k => (l.drop (k * b)).take b

/-- The batch loop: fold stepBatch over the batches, feeding batch k the
oracle reply for position k. -/
def runBatches (oracle : Nat → TReply) : Nat → TState → List (List SubItem) → TState
  | _, st, [] => st
  | k, st, bt :: bs => runBatches oracle (k + 1) (stepBatch (oracle k) st bt) bs

/-- Embedding of translate_with_cache: load the cache, batch the lines,
run the loop.  The oracle supplies the parsed reply each fresh batch
would receive from the completion call. -/
def translate_with_cache (oracle : Nat → TReply) (subs : List SubItem) (c : TMap) : TState :=
  runBatches oracle 0 { cache := c, output := [], requests := [] } (chunks BATCH_SIZE subs)

/-- Conversion of cached or fresh raw segments into subtitle lines:
1-based re-indexing in order, text trimmed. -/
def segsToSubs (segs : List Segment) : List SubItem :=
  segs.enum.map fun p => { index := p.1 + 1, start := p.2.start, stop := p.2.stop,
                           text := p.2.text.trim }

/-- Result of a successful transcribe_with_cache call: the subtitle lines,
the transcript cache file state afterwards, and how many Whisper
transcriptions ran. -/
structure TranscribeOk where
  subs : List SubItem
  cacheFile : Option (Option (List Segment))
  whisperCalls : Nat
deriving Repr

/-- Embedding of transcribe_with_cache.  The transcript cache file state
is none when the file is missing, some none when it exists but does not
parse, and some (some segs) when it parses to segs.  When the file exists
but does not parse, json.load raises and the exception propagates out of
the function: no transcription runs and the file is not rewritten. -/
def transcribe_with_cache (whisperResult : List Segment)
    (cacheFile : Option (Option (List Segment))) : Except Unit TranscribeOk :=
  match cacheFile with
  | some (some segs) =>
      Except.ok { subs := segsToSubs segs, cacheFile := some (some segs), whisperCalls := 0 }
  | some none => Except.error ()
  | none =>
      Except.ok { subs := segsToSubs whisperResult,
                  cacheFile := some (some whisperResult), whisperCalls := 1 }

/-- Result of one generate_subtitles run over one media file. -/
structure PipeResult where
  output : List SubItem
  tCacheFile : Option (Option (List Segment))
  trCache : TMap
  whisperCalls : Nat
  llmCalls : Nat

/-- Embedding of generate_subtitles for one file: transcribe (with cache),
then translate (with cache), then report the output lines and the final
cache states; an error from transcription propagates. -/
def generate_subtitles (w : List Segment) (o : Nat → TReply)
    (tc : Option (Option (List Segment))) (c : TMap) : Except Unit PipeResult :=
  match transcribe_with_cache w tc with
  | Except.error e => Except.error e
  | Except.ok tr =>
      let ts := translate_with_cache o tr.subs c
      Except.ok { output := ts.output, tCacheFile := tr.cacheFile, trCache := ts.cache,
                  whisperCalls := tr.whisperCalls, llmCalls := ts.requests.length }

/-- The per-file loop of main: each file outcome is tallied as a success
or a failure and the loop continues; the fold is total, so one failing
file never stops the batch. -/
def procStep {β : Type} (acc : Nat × Nat) (r : Except Unit β) : Nat × Nat :=
  match r with
  | Except.ok _ => (acc.1 + 1, acc.2)
  | Except.error _ => (acc.1, acc.2 + 1)

def processAll {β : Type} (runs : List (Except Unit β)) : Nat × Nat :=
  runs.foldl procStep (0, 0)

/-- Python substring test needle in hay, decided on the character lists. -/
def containsSub (needle hay : String) : Bool :=
  decide (List.IsInfix needle.toList hay.toList)

/-- State of the generator after VideoSubtitleGenerator.__init__: the
resolved credentials and whether the missing-key warning was printed.
The constructor has no raise path for missing credentials: it only
prints a warning, and only when "gpt" occurs in GPT_MODEL. -/
structure InitResult where
  apiKey : Option String
  apiBase : Option String
  warned : Bool
deriving DecidableEq, Repr

/-- Embedding of VideoSubtitleGenerator.__init__: flag value, else
environment variable; warn (only) when no key and "gpt" in GPT_MODEL. -/
def generatorInit (apiKeyArg apiBaseArg envKey envBase : Option String) : InitResult :=
  let k := apiKeyArg.orElse fun _ => envKey
  let b := apiBaseArg.orElse fun _ => envBase
  { apiKey := k, apiBase := b, warned := k.isNone && containsSub "gpt" GPT_MODEL }

/-- Outcome of the startup phase of main, before any file is processed. -/
inductive StartupOutcome where
  | exitPathMissing
  | exitNoMedia
  | proceed (gen : InitResult) (fileCount : Nat)
deriving DecidableEq, Repr

/-- Embedding of the startup phase of main: exit 1 when the input path
does not exist or no media files are found; otherwise construct the
generator and proceed to the per-file loop.  Credentials are never
checked fatally anywhere on this path. -/
def mainStartup (inputExists : Bool) (mediaFiles : Nat)
    (apiKeyArg apiBaseArg envKey envBase : Option String) : StartupOutcome :=
  if !inputExists then StartupOutcome.exitPathMissing
  else if mediaFiles = 0 then StartupOutcome.exitNoMedia
  else StartupOutcome.proceed (generatorInit apiKeyArg apiBaseArg envKey envBase) mediaFiles

/-- Full outcome of parsing one reply body, covering valid JSON that is
not an object.  obj m is a JSON object (including the empty object that
stands for a raised or unparsable reply); scalar is a JSON number,
boolean or null, on which the membership test sid in translated_batch
raises TypeError at once; arr es is a JSON array, listing its string
elements (the only ones a stringified index can equal); strv s is a JSON
string, on which membership is the substring test. -/
inductive PyReply where
  | obj (m : TReply)
  | scalar
  | arr (es : List String)
  | strv (s : String)

/-- The per-item body of the reply-processing loop, line by line faithful
to sid in translated_batch and translated_batch[sid]: an object answers
with the string value or falls back to the failure marker; a scalar
makes the membership test itself raise TypeError; for an array or a
string, membership succeeding makes the subsequent indexing raise
TypeError, and membership failing falls back to the failure marker.
The error propagates out, as the loop sits outside the try block. -/
def pyFinal (tb : PyReply) (it : SubItem) : Except Unit String :=
  match tb with
  | PyReply.obj m => Except.ok (batchFinal m it)
  | PyReply.scalar => Except.error ()
  | PyReply.arr es =>
      if skey it ∈ es then Except.error () else Except.ok (failText it.text)
  | PyReply.strv s =>
      if containsSub (skey it) s then Except.error () else Except.ok (failText it.text)

/-- The reply-processing loop over the batch items in order, stopping at
the first item whose processing raises. -/
def processItems (reply : PyReply) : List SubItem → Except Unit (List (SubItem × String))
  | [] => Except.ok []
  | it :: rest =>
      match pyFinal reply it with
      | Except.error e => Except.error e
      | Except.ok t =>
          match processItems reply rest with
          | Except.error e => Except.error e
          | Except.ok ps => Except.ok ((it, t) :: ps)

/-- Body of the batch loop of translate_with_cache under the full reply
model: a fully cached batch behaves as in stepBatch; a fresh batch
processes its reply item by item, and a TypeError from a non-object
reply aborts the whole call. -/
def stepBatchPy (reply : PyReply) (st : TState) (batch : List SubItem) : Except Unit TState :=
  if needsTranslation st.cache batch then
    match processItems reply batch with
    | Except.error e => Except.error e
    | Except.ok pairs =>
        Except.ok
          { cache := pairs.foldl (fun c p => TMap.update c (skey p.1) p.2) st.cache,
            output := st.output ++ pairs.map (fun p => { p.1 with text := p.2 }),
            requests := st.requests ++ [sourceDict batch] }
  else
    Except.ok
      { st with output := st.output
          ++ batch.map (fun it => { it with text := (st.cache (skey it)).getD "" }) }

/-- The batch loop under the full reply model: an error from any batch
aborts the remaining batches. -/
def runBatchesPy (oracle : Nat → PyReply) : Nat → TState → List (List SubItem) → Except Unit TState
  | _, st, [] => Except.ok st
  | k, st, bt :: bs =>
      match stepBatchPy (oracle k) st bt with
      | Except.error e => Except.error e
      | Except.ok st2 => runBatchesPy oracle (k + 1) st2 bs

/-- Embedding of translate_with_cache under the full reply model, in
which a reply body parsing to valid non-object JSON raises a TypeError
that propagates out of the function. -/
def translate_with_cachePy (oracle : Nat → PyReply) (subs : List SubItem) (c : TMap) :
    Except Unit TState :=
  runBatchesPy oracle 0 { cache := c, output := [], requests := [] } (chunks BATCH_SIZE subs)

/-- Fixture: a two-line batch used by several witnesses. -/
def wbatch : List SubItem := [⟨1, 0, 1, "今日は"⟩, ⟨2, 1, 2, "いい天気"⟩]

/-- Fixture: a loop state whose cache already holds line 1 but not
line 2, so the batch is only partially cached. -/
def wstate : TState := ⟨TMap.update TMap.empty "1" "已有翻译", [], []⟩

/-- Fixture: a reply that answers line 1 with a string and says nothing
about line 2. -/
def wreply : TReply := fun q => if q = "1" then some (JVal.str "译一") else none

/-- Fixture: a partially cached two-line transcript for the C3
counterexample. -/
def c3subs : List SubItem := [⟨1, 0, 1, "こんにちは"⟩, ⟨2, 1, 2, "はい"⟩]

/-- Fixture: a translation cache that already holds line 1 of c3subs. -/
def c3cache : TMap := TMap.update TMap.empty "1" "你好"

/-- Fixture: two raw segments whose lines are fully covered by the
translation cache fixture below. -/
def wsegs : List Segment := [⟨0, 3, " おはよう "⟩, ⟨3, 5, "はい"⟩]

/-- Fixture: a translation cache holding entries for both line indices of
wsegs. -/
def wcache2 : TMap := TMap.update (TMap.update TMap.empty "1" "早上好") "2" "是"

/-- Fixture: a two-line transcript indexed 1..2 for the C4 theorems. -/
def c4subs : List SubItem := [⟨1, 0, 5, "猫"⟩, ⟨2, 5, 9, "犬"⟩]

/-- Fixture: an oracle whose every reply parses to the empty JSON
object, the shape a raised or unparsable reply degrades to. -/
def wObjOracle : Nat → PyReply := fun _ => PyReply.obj (fun _ => none)

/-- Fixture: the object components of wObjOracle. -/
def wObjOracleM : Nat → TReply := fun _ _ => none

/-! Lemmas about the batching. -/

theorem chunks_prefix_join {α : Type} (b : Nat) (l : List α) (m : Nat) :
    ((List.range m).map (fun k => (l.drop (k * b)).take b)).flatten = l.take (m * b) := by
  induction m with
  | zero => simp
  | succ m ih =>
      rw [List.range_succ, List.map_append, List.flatten_append, ih]
      simp [Nat.succ_mul, List.take_add]

theorem le_numBatches_mul (b n : Nat) (hb : 0 < b) : n ≤ numBatches b n * b := by
  unfold numBatches
  have h2 := Nat.div_add_mod (n + b - 1) b
  have h3 : (n + b - 1) % b < b := Nat.mod_lt _ hb
  rw [Nat.mul_comm]
  omega

theorem chunks_join {α : Type} (b : Nat) (hb : 0 < b) (l : List α) :
    (chunks b l).flatten = l := by
  unfold chunks
  rw [chunks_prefix_join]
  exact List.take_of_length_le (le_numBatches_mul b l.length hb)

theorem chunks_length {α : Type} (b : Nat) (l : List α) :
    (chunks b l).length = (l.length + b - 1) / b := by
  simp [chunks, numBatches]

theorem chunks_get {α : Type} (b : Nat) (l : List α) (i : Nat)
    (h : i < (chunks b l).length) :
    (chunks b l).get ⟨i, h⟩ = (l.drop (i * b)).take b := by
  simp [chunks]

theorem chunks_get_length {α : Type} (b : Nat) (l : List α) (i : Nat)
    (h : i < (chunks b l).length) :
    ((chunks b l).get ⟨i, h⟩).length = min b (l.length - i * b) := by
  rw [chunks_get]
  simp

theorem mem_of_mem_chunks {α : Type} (b : Nat) (hb : 0 < b) (l : List α)
    {bt : List α} {x : α} (hbt : bt ∈ chunks b l) (hx : x ∈ bt) : x ∈ l := by
  have : x ∈ (chunks b l).flatten := List.mem_flatten.mpr ⟨bt, hbt, hx⟩
  rwa [chunks_join b hb] at this

/-! Lemmas about the batch loop. -/

theorem stepBatch_output_index (r : TReply) (st : TState) (bt : List SubItem) :
    (stepBatch r st bt).output.map SubItem.index
      = st.output.map SubItem.index ++ bt.map SubItem.index := by
  unfold stepBatch
  split <;> simp

theorem runBatches_output_index (o : Nat → TReply) (k : Nat) (st : TState)
    (bs : List (List SubItem)) :
    (runBatches o k st bs).output.map SubItem.index
      = st.output.map SubItem.index ++ (bs.flatten).map SubItem.index := by
  induction bs generalizing k st with
  | nil => simp [runBatches]
  | cons bt rest ih =>
      rw [runBatches, ih, stepBatch_output_index]
      simp

theorem translate_output_index (o : Nat → TReply) (subs : List SubItem) (c : TMap) :
    (translate_with_cache o subs c).output.map SubItem.index = subs.map SubItem.index := by
  unfold translate_with_cache
  rw [runBatches_output_index, chunks_join BATCH_SIZE (by decide)]
  simp

theorem needsTranslation_eq_false (c : TMap) (bt : List SubItem) :
    needsTranslation c bt = false ↔ ∀ it ∈ bt, (c (skey it)).isSome := by
  simp [needsTranslation, List.any_eq_false, Option.isNone_iff_eq_none,
        Option.isSome_iff_ne_none]

theorem foldl_update_notmem (bt : List SubItem) (c : TMap) (v : SubItem → String)
    (q : String) (hq : q ∉ bt.map skey) :
    (bt.foldl (fun c it => TMap.update c (skey it) (v it)) c) q = c q := by
  induction bt generalizing c with
  | nil => rfl
  | cons a rest ih =>
      simp only [List.map_cons, List.mem_cons, not_or] at hq
      rw [List.foldl_cons, ih _ hq.2]
      simp [TMap.update, hq.1]

theorem foldl_update_mem (bt : List SubItem) (c : TMap) (v : SubItem → String)
    (it : SubItem) (hit : it ∈ bt) (hnd : (bt.map skey).Nodup) :
    (bt.foldl (fun c i => TMap.update c (skey i) (v i)) c) (skey it) = some (v it) := by
  induction bt generalizing c with
  | nil => cases hit
  | cons a rest ih =>
      simp only [List.map_cons, List.nodup_cons] at hnd
      rcases List.mem_cons.mp hit with h | h
      · subst h
        rw [List.foldl_cons, foldl_update_notmem rest _ v (skey it) hnd.1]
        simp [TMap.update]
      · rw [List.foldl_cons]
        exact ih _ h hnd.2

theorem stepBatch_pos (r : TReply) (st : TState) (bt : List SubItem)
    (hn : needsTranslation st.cache bt = true) :
    stepBatch r st bt =
      { cache := bt.foldl (fun c it => TMap.update c (skey it) (batchFinal r it)) st.cache,
        output := st.output ++ bt.map (fun it => { it with text := batchFinal r it }),
        requests := st.requests ++ [sourceDict bt] } := by
  unfold stepBatch
  rw [hn]
  simp

theorem stepBatch_neg (r : TReply) (st : TState) (bt : List SubItem)
    (hn : needsTranslation st.cache bt = false) :
    stepBatch r st bt =
      { st with output := st.output
          ++ bt.map (fun it => { it with text := (st.cache (skey it)).getD "" }) } := by
  unfold stepBatch
  rw [hn]
  simp

theorem runBatches_all_cached (o : Nat → TReply) (k : Nat) (st : TState)
    (bs : List (List SubItem))
    (h : ∀ bt ∈ bs, ∀ it ∈ bt, (st.cache (skey it)).isSome) :
    runBatches o k st bs =
      { cache := st.cache,
        output := st.output
          ++ (bs.flatten).map (fun it => { it with text := (st.cache (skey it)).getD "" }),
        requests := st.requests } := by
  induction bs generalizing k st with
  | nil => simp [runBatches]
  | cons bt rest ih =>
      have hbt : needsTranslation st.cache bt = false :=
        (needsTranslation_eq_false st.cache bt).mpr (h bt (List.mem_cons_self bt rest))
      rw [runBatches, stepBatch_neg (o k) st bt hbt, ih (k + 1)]
      · simp
      · intro b hb it hit
        exact h b (List.mem_cons_of_mem bt hb) it hit

theorem translate_all_cached (o : Nat → TReply) (subs : List SubItem) (c : TMap)
    (h : ∀ it ∈ subs, (c (skey it)).isSome) :
    translate_with_cache o subs c =
      { cache := c,
        output := subs.map (fun it => { it with text := (c (skey it)).getD "" }),
        requests := [] } := by
  unfold translate_with_cache
  rw [runBatches_all_cached o 0 _ _
        (fun bt hbt it hit => h it (mem_of_mem_chunks BATCH_SIZE (by decide) subs hbt hit))]
  rw [chunks_join BATCH_SIZE (by decide)]
  simp

theorem stepBatch_spec (r : TReply) (st : TState) (bt : List SubItem)
    (hnd : (bt.map skey).Nodup) :
    (stepBatch r st bt).output
      = st.output
        ++ bt.map (fun it => { it with text := ((stepBatch r st bt).cache (skey it)).getD "" }) ∧
    (∀ it ∈ bt, ((stepBatch r st bt).cache (skey it)).isSome) ∧
    (∀ q, q ∉ bt.map skey → (stepBatch r st bt).cache q = st.cache q) := by
  cases hn : needsTranslation st.cache bt with
  | true =>
      rw [stepBatch_pos r st bt hn]
      refine ⟨?_, ?_, ?_⟩
      · simp only []
        congr 1
        apply List.map_congr_left
        intro it hit
        rw [foldl_update_mem bt st.cache _ it hit hnd]
        rfl
      · intro it hit
        simp only []
        rw [foldl_update_mem bt st.cache _ it hit hnd]
        rfl
      · intro q hq
        exact foldl_update_notmem bt st.cache _ q hq
  | false =>
      rw [stepBatch_neg r st bt hn]
      refine ⟨rfl, ?_, fun q _ => rfl⟩
      intro it hit
      exact (needsTranslation_eq_false st.cache bt).mp hn it hit

theorem runBatches_run_spec (o : Nat → TReply) (k : Nat) (st : TState)
    (bs : List (List SubItem)) (hnd : ((bs.flatten).map skey).Nodup) :
    (runBatches o k st bs).output
      = st.output ++ (bs.flatten).map
          (fun it => { it with text := ((runBatches o k st bs).cache (skey it)).getD "" }) ∧
    (∀ it ∈ bs.flatten, ((runBatches o k st bs).cache (skey it)).isSome) ∧
    (∀ q, q ∉ (bs.flatten).map skey → (runBatches o k st bs).cache q = st.cache q) := by
  induction bs generalizing k st with
  | nil => simp [runBatches]
  | cons bt rest ih =>
      rw [List.flatten_cons, List.map_append] at hnd
      obtain ⟨h1, h2, hdisj⟩ := List.nodup_append.mp hnd
      simp only [runBatches]
      obtain ⟨ho, hsome, hpres⟩ := stepBatch_spec (o k) st bt h1
      obtain ⟨iho, ihsome, ihpres⟩ := ih (k + 1) (stepBatch (o k) st bt) h2
      have hkey : ∀ it ∈ bt,
          (runBatches o (k + 1) (stepBatch (o k) st bt) rest).cache (skey it)
            = (stepBatch (o k) st bt).cache (skey it) := by
        intro it hit
        exact ihpres (skey it) (fun hc => hdisj (List.mem_map_of_mem skey hit) hc)
      refine ⟨?_, ?_, ?_⟩
      · rw [List.flatten_cons, List.map_append, iho, ho, List.append_assoc]
        congr 2
        apply List.map_congr_left
        intro it hit
        rw [hkey it hit]
      · intro it hit
        rw [List.flatten_cons, List.mem_append] at hit
        rcases hit with h | h
        · rw [hkey it h]
          exact hsome it h
        · exact ihsome it h
      · intro q hq
        rw [List.flatten_cons, List.map_append, List.mem_append, not_or] at hq
        rw [ihpres q hq.2]
        exact hpres q hq.1

theorem processAll_go_sum {β : Type} (runs : List (Except Unit β)) (acc : Nat × Nat) :
    (runs.foldl procStep acc).1 + (runs.foldl procStep acc).2
      = acc.1 + acc.2 + runs.length := by
  induction runs generalizing acc with
  | nil => simp
  | cons r rest ih =>
      rw [List.foldl_cons, ih]
      cases r <;> simp [procStep] <;> omega

theorem processAll_sum {β : Type} (runs : List (Except Unit β)) :
    (processAll runs).1 + (processAll runs).2 = runs.length := by
  unfold processAll
  rw [processAll_go_sum]
  simp

theorem processItems_obj (m : TReply) (bt : List SubItem) :
    processItems (PyReply.obj m) bt = Except.ok (bt.map (fun it => (it, batchFinal m it))) := by
  induction bt with
  | nil => rfl
  | cons a rest ih => simp [processItems, pyFinal, ih]

theorem stepBatchPy_obj (m : TReply) (st : TState) (bt : List SubItem) :
    stepBatchPy (PyReply.obj m) st bt = Except.ok (stepBatch m st bt) := by
  cases hn : needsTranslation st.cache bt with
  | true =>
      rw [stepBatch_pos m st bt hn]
      unfold stepBatchPy
      rw [hn, processItems_obj]
      simp [List.foldl_map, List.map_map]
  | false =>
      rw [stepBatch_neg m st bt hn]
      unfold stepBatchPy
      rw [hn]
      simp

theorem runBatchesPy_obj (o : Nat → PyReply) (om : Nat → TReply)
    (hobj : ∀ k, o k = PyReply.obj (om k)) (k : Nat) (st : TState)
    (bs : List (List SubItem)) :
    runBatchesPy o k st bs = Except.ok (runBatches om k st bs) := by
  induction bs generalizing k st with
  | nil => rfl
  | cons bt rest ih =>
      unfold runBatchesPy runBatches
      rw [hobj k, stepBatchPy_obj]
      exact ih (k + 1) (stepBatch (om k) st bt)

theorem translatePy_obj (o : Nat → PyReply) (om : Nat → TReply)
    (hobj : ∀ k, o k = PyReply.obj (om k)) (subs : List SubItem) (c : TMap) :
    translate_with_cachePy o subs c = Except.ok (translate_with_cache om subs c) :=
  runBatchesPy_obj o om hobj 0 { cache := c, output := [], requests := [] }
    (chunks BATCH_SIZE subs)

/-! Claim theorems. -/

/-- Claim C1 counterexample: with an existing but unparsable transcript
cache file, transcribe_with_cache returns an error instead of running a
fresh transcription and overwriting the cache, refuting the claim that
corruption is treated as a cache miss and never escapes the
cache-reading code. -/
theorem C1_counterexample :
    transcribe_with_cache [⟨0, 2, " こんにちは "⟩] (some none) = Except.error () := rfl

/-- Claim C1 (amended): an unparsable transcript cache file makes the
parse exception propagate out of transcribe_with_cache, whatever the
transcription engine would have returned: no fresh transcription runs
and the cache file is not overwritten; the same error aborts that file
inside generate_subtitles; the per-file loop of main still tallies every
file as a success or a failure, so the process itself survives. -/
theorem C1_corrupt_cache_error (w : List Segment) (o : Nat → TReply) (c : TMap)
    (runs : List (Except Unit PipeResult)) :
    transcribe_with_cache w (some none) = Except.error () ∧
    generate_subtitles w o (some none) c = Except.error () ∧
    (processAll runs).1 + (processAll runs).2 = runs.length :=
  ⟨rfl, rfl, processAll_sum runs⟩

/-- Claim C2 counterexample: with no credential from flag or environment
and the configured remote model, startup does not exit: main proceeds to
the per-file loop, and not even the warning fires, because the string
"gpt" does not occur in "deepseek/deepseek-chat". -/
theorem C2_counterexample :
    mainStartup true 3 none none none none
      = StartupOutcome.proceed { apiKey := none, apiBase := none, warned := false } 3 := by
  decide

/-- Claim C2 (amended): missing credentials are never a startup error:
whenever the input path exists and at least one media file was found,
main proceeds to the per-file loop with the constructed generator, for
every credential configuration.  The constructor only prints a warning,
and only when "gpt" occurs in the configured model name, which is false
for GPT_MODEL, so with no credential at all not even the warning
fires. -/
theorem C2_no_credential_exit (n : Nat) (hn : 0 < n)
    (ka ba ke be : Option String) :
    mainStartup true n ka ba ke be
      = StartupOutcome.proceed (generatorInit ka ba ke be) n ∧
    containsSub "gpt" GPT_MODEL = false ∧
    (generatorInit none none none none).warned = false := by
  refine ⟨?_, by decide, by decide⟩
  unfold mainStartup
  simp [hn.ne']

theorem C2_no_credential_exit_witness :
    0 < 2 ∧
    (mainStartup true 2 none none none none
       = StartupOutcome.proceed (generatorInit none none none none) 2 ∧
     containsSub "gpt" GPT_MODEL = false ∧
     (generatorInit none none none none).warned = false) :=
  ⟨by decide, C2_no_credential_exit 2 (by decide) none none none none⟩

/-- Claim C7: the output of translate_with_cache lists its lines in
exactly the index order of the input transcript, whichever of the cached
or the fresh path each batch takes: the sequence of output indices
equals the sequence of input indices, so no index is reordered or
dropped. -/
theorem C7_order_preserved (o : Nat → TReply) (subs : List SubItem) (c : TMap) :
    (translate_with_cache o subs c).output.map SubItem.index = subs.map SubItem.index :=
  translate_output_index o subs c

/-- Claim C4 counterexample: on a two-line transcript indexed 1..2 with
an empty cache, a reply body that parses to a JSON number makes the
membership test sid in translated_batch raise TypeError outside the
try block: translate_with_cache aborts with an error and returns no
output sequence at all, refuting the claim that the output has exactly
N lines no matter how malformed the replies are. -/
theorem C4_counterexample :
    c4subs.map SubItem.index = List.range' 1 2 ∧
    translate_with_cachePy (fun _ => PyReply.scalar) c4subs TMap.empty = Except.error () :=
  ⟨by decide, rfl⟩

/-- Claim C4 (amended): for a transcript of N lines indexed 1..N and any
replies that each either degrade to the empty object (a raised call or
unparsable content) or parse to a JSON object, with any entries, the
call succeeds and the output has exactly N lines whose index sequence is
exactly 1..N.  A reply parsing to valid non-object JSON instead raises a
TypeError outside the try block and aborts the call with no output, as
the counterexample shows. -/
theorem C4_index_coverage (o : Nat → PyReply) (om : Nat → TReply)
    (subs : List SubItem) (c : TMap) (n : Nat)
    (hobj : ∀ k, o k = PyReply.obj (om k))
    (h : subs.map SubItem.index = List.range' 1 n) :
    ∃ st : TState,
      translate_with_cachePy o subs c = Except.ok st ∧
      st.output.length = n ∧
      st.output.map SubItem.index = List.range' 1 n := by
  refine ⟨translate_with_cache om subs c, translatePy_obj o om hobj subs c, ?_, ?_⟩
  · have hidx := translate_output_index om subs c
    rw [h] at hidx
    have hlen := congrArg List.length hidx
    simpa using hlen
  · have hidx := translate_output_index om subs c
    rw [h] at hidx
    exact hidx

theorem C4_index_coverage_witness :
    (∀ k, wObjOracle k = PyReply.obj (wObjOracleM k)) ∧
    c4subs.map SubItem.index = List.range' 1 2 ∧
    (∃ st : TState,
       translate_with_cachePy wObjOracle c4subs TMap.empty = Except.ok st ∧
       st.output.length = 2 ∧
       st.output.map SubItem.index = List.range' 1 2) :=
  ⟨fun _ => rfl, by decide,
   C4_index_coverage wObjOracle wObjOracleM c4subs TMap.empty 2 (fun _ => rfl) (by decide)⟩

/-- Claim C8: the line sequence is partitioned into ceil(N / b) contiguous
batches in order whose concatenation is the original sequence, so every
line belongs to exactly one batch; batch i has length min b (N - i * b),
that is, size b except a smaller final remainder; concretely, 32 lines
at BATCH_SIZE 15 form exactly 3 batches of sizes 15, 15 and 2. -/
theorem C8_batch_partition {α : Type} (b : Nat) (hb : 0 < b) (l : List α) :
    (chunks b l).flatten = l ∧
    (chunks b l).length = (l.length + b - 1) / b ∧
    (∀ i (h : i < (chunks b l).length),
        ((chunks b l).get ⟨i, h⟩).length = min b (l.length - i * b)) ∧
    (chunks BATCH_SIZE (List.range 32)).map List.length = [15, 15, 2] :=
  ⟨chunks_join b hb l, chunks_length b l,
   fun i h => chunks_get_length b l i h, by decide⟩

theorem C8_batch_partition_witness :
    0 < 2 ∧
    ((chunks 2 ["あ", "い", "う"]).flatten = ["あ", "い", "う"] ∧
     (chunks 2 ["あ", "い", "う"]).length = ((["あ", "い", "う"] : List String).length + 2 - 1) / 2 ∧
     (∀ i (h : i < (chunks 2 ["あ", "い", "う"]).length),
        ((chunks 2 ["あ", "い", "う"]).get ⟨i, h⟩).length
          = min 2 ((["あ", "い", "う"] : List String).length - i * 2)) ∧
     (chunks BATCH_SIZE (List.range 32)).map List.length = [15, 15, 2]) :=
  ⟨by decide, C8_batch_partition 2 (by decide) ["あ", "い", "う"]⟩

/-- Claim C3 counterexample: on a batch whose line 1 already has a cached
translation while line 2 does not, the request payload issued by
translate_with_cache carries the whole batch, the cached line 1
included, refuting the claim that cached lines are not included in the
request. -/
theorem C3_counterexample :
    (c3cache "1").isSome = true ∧
    (translate_with_cache (fun _ _ => none) c3subs c3cache).requests
      = [[("1", "こんにちは"), ("2", "はい")]] :=
  ⟨rfl, rfl⟩

/-- Claim C3 (amended): for every batch that is not fully cached, the
request payload contains exactly the (stringified index, source text)
pairs of all lines of the batch, the already-cached lines included; a
fully cached batch issues no request at all. -/
theorem C3_request_payload (r : TReply) (st : TState) (bt : List SubItem) :
    (needsTranslation st.cache bt = true →
       (stepBatch r st bt).requests
         = st.requests ++ [bt.map (fun it => (skey it, it.text))]) ∧
    (needsTranslation st.cache bt = false →
       (stepBatch r st bt).requests = st.requests) := by
  constructor
  · intro hn
    rw [stepBatch_pos r st bt hn]
    rfl
  · intro hn
    rw [stepBatch_neg r st bt hn]

theorem C3_request_payload_witness :
    (stepBatch wreply wstate wbatch).requests
      = wstate.requests ++ [wbatch.map (fun it => (skey it, it.text))] :=
  (C3_request_payload wreply wstate wbatch).1 (by decide)

/-- Claim C5: for a batch that needs translation and whose reply answers
every requested index with a string except the index of line j, line j
is emitted with the failure marker embedding its original source text,
and every line whose index the reply does answer with a string is
emitted with exactly that string. -/
theorem C5_partial_failure_isolation (r : TReply) (st : TState) (bt : List SubItem)
    (j : SubItem) (_hj : j ∈ bt)
    (hneed : needsTranslation st.cache bt = true)
    (hmiss : ∀ s, r (skey j) ≠ some (JVal.str s))
    (_hhit : ∀ it ∈ bt, skey it ≠ skey j → ∃ s, r (skey it) = some (JVal.str s)) :
    (stepBatch r st bt).output
      = st.output ++ bt.map (fun it => { it with text := batchFinal r it }) ∧
    batchFinal r j = failText j.text ∧
    (∀ it ∈ bt, ∀ s, r (skey it) = some (JVal.str s) → batchFinal r it = s) := by
  refine ⟨?_, ?_, ?_⟩
  · rw [stepBatch_pos r st bt hneed]
  · unfold batchFinal
    cases hr : r (skey j) with
    | none => rfl
    | some v =>
        cases v with
        | str s => exact absurd hr (hmiss s)
        | other => rfl
  · intro it hit s hs
    unfold batchFinal
    rw [hs]

theorem C5_partial_failure_isolation_witness :
    (stepBatch wreply wstate wbatch).output
      = wstate.output ++ wbatch.map (fun it => { it with text := batchFinal wreply it }) ∧
    batchFinal wreply ⟨2, 1, 2, "いい天気"⟩ = failText "いい天気" ∧
    batchFinal wreply ⟨1, 0, 1, "今日は"⟩ = "译一" :=
  have h := C5_partial_failure_isolation wreply wstate wbatch ⟨2, 1, 2, "いい天気"⟩
    (by decide) (by decide)
    (fun s hs => nomatch hs)
    (by
      intro it hit hne
      rcases List.mem_cons.mp hit with h1 | h1
      · subst h1
        exact ⟨"译一", rfl⟩
      · rcases List.mem_cons.mp h1 with h2 | h2
        · subst h2
          exact absurd rfl hne
        · exact absurd h2 (List.not_mem_nil it))
  ⟨h.1, h.2.1, h.2.2 ⟨1, 0, 1, "今日は"⟩ (by decide) "译一" rfl⟩

/-- Claim C9: whenever at least one line of a batch has no cached
translation, the loop body overwrites the cache entry of every line of
the batch with the value taken from the new reply or the failure marker,
the previously cached lines included; when every line of the batch is
cached, the body leaves the cache untouched. -/
theorem C9_batch_cache_overwrite (r : TReply) (st : TState) (bt : List SubItem)
    (hnd : (bt.map skey).Nodup) :
    (needsTranslation st.cache bt = true →
       ∀ it ∈ bt, (stepBatch r st bt).cache (skey it) = some (batchFinal r it)) ∧
    (needsTranslation st.cache bt = false → (stepBatch r st bt).cache = st.cache) := by
  constructor
  · intro hn it hit
    rw [stepBatch_pos r st bt hn]
    exact foldl_update_mem bt st.cache _ it hit hnd
  · intro hn
    rw [stepBatch_neg r st bt hn]

theorem C9_batch_cache_overwrite_witness :
    (stepBatch wreply wstate wbatch).cache (skey ⟨1, 0, 1, "今日は"⟩)
      = some (batchFinal wreply ⟨1, 0, 1, "今日は"⟩) :=
  (C9_batch_cache_overwrite wreply wstate wbatch (by decide)).1 (by decide)
    ⟨1, 0, 1, "今日は"⟩ (by decide)

theorem generate_subtitles_cached (w : List Segment) (o : Nat → TReply)
    (segs : List Segment) (c : TMap)
    (hall : ∀ it ∈ segsToSubs segs, (c (skey it)).isSome) :
    generate_subtitles w o (some (some segs)) c =
      Except.ok
        { output := (segsToSubs segs).map (fun it => { it with text := (c (skey it)).getD "" }),
          tCacheFile := some (some segs), trCache := c,
          whisperCalls := 0, llmCalls := 0 } := by
  have h := translate_all_cached o (segsToSubs segs) c hall
  show (Except.ok
      ({ output := (translate_with_cache o (segsToSubs segs) c).output,
         tCacheFile := some (some segs),
         trCache := (translate_with_cache o (segsToSubs segs) c).cache,
         whisperCalls := 0,
         llmCalls := (translate_with_cache o (segsToSubs segs) c).requests.length } : PipeResult)
    : Except Unit PipeResult)
    = Except.ok
        { output := (segsToSubs segs).map (fun it => { it with text := (c (skey it)).getD "" }),
          tCacheFile := some (some segs), trCache := c,
          whisperCalls := 0, llmCalls := 0 }
  rw [h]
  rfl

/-- Claim C6: when the transcript cache holds the segments for the file
and the translation cache holds an entry for every line index, a
pipeline run issues zero transcription calls and zero translation calls
and leaves both caches unchanged; a second run over the resulting caches
(under any transcription result and any replies) returns the identical
result, so its output subtitle file is identical to the first. -/
theorem C6_pipeline_idempotent (w w2 : List Segment) (o o2 : Nat → TReply)
    (segs : List Segment) (c : TMap)
    (hall : ∀ it ∈ segsToSubs segs, (c (skey it)).isSome) :
    ∃ r : PipeResult,
      generate_subtitles w o (some (some segs)) c = Except.ok r ∧
      r.whisperCalls = 0 ∧ r.llmCalls = 0 ∧
      r.tCacheFile = some (some segs) ∧ r.trCache = c ∧
      generate_subtitles w2 o2 r.tCacheFile r.trCache = Except.ok r :=
  ⟨_, generate_subtitles_cached w o segs c hall, rfl, rfl, rfl, rfl,
   generate_subtitles_cached w2 o2 segs c hall⟩

theorem C6_pipeline_idempotent_witness :
    (∀ it ∈ segsToSubs wsegs, (wcache2 (skey it)).isSome) ∧
    (∃ r : PipeResult,
       generate_subtitles [] (fun _ _ => none) (some (some wsegs)) wcache2 = Except.ok r ∧
       r.whisperCalls = 0 ∧ r.llmCalls = 0 ∧
       r.tCacheFile = some (some wsegs) ∧ r.trCache = wcache2 ∧
       generate_subtitles [] (fun _ _ => none) r.tCacheFile r.trCache = Except.ok r) :=
  ⟨by decide,
   C6_pipeline_idempotent [] [] (fun _ _ => none) (fun _ _ => none) wsegs wcache2 (by decide)⟩

/-- Claim C10: failure markers enter the translation cache exactly like
successful translations and the presence check cannot tell them apart:
after one full run over a transcript with distinct indices, every line
index has a cache entry (whatever the replies were), and a rerun over
the resulting cache, under any oracle, issues zero translation requests
and reproduces the first output, failure markers included, unchanged. -/
theorem C10_markers_cached_and_stable (o o2 : Nat → TReply) (subs : List SubItem) (c : TMap)
    (hnd : (subs.map skey).Nodup) :
    (∀ it ∈ subs, ((translate_with_cache o subs c).cache (skey it)).isSome) ∧
    (translate_with_cache o2 subs (translate_with_cache o subs c).cache).requests = [] ∧
    (translate_with_cache o2 subs (translate_with_cache o subs c).cache).output
      = (translate_with_cache o subs c).output := by
  have hj : (chunks BATCH_SIZE subs).flatten = subs := chunks_join BATCH_SIZE (by decide) subs
  have hnd2 : (((chunks BATCH_SIZE subs).flatten).map skey).Nodup := by
    rw [hj]
    exact hnd
  have hspec := runBatches_run_spec o 0 ⟨c, [], []⟩ (chunks BATCH_SIZE subs) hnd2
  rw [hj] at hspec
  have heq : translate_with_cache o subs c
      = runBatches o 0 ⟨c, [], []⟩ (chunks BATCH_SIZE subs) := rfl
  rw [← heq] at hspec
  obtain ⟨ho, hsome, -⟩ := hspec
  refine ⟨hsome, ?_, ?_⟩
  · rw [translate_all_cached o2 subs _ hsome]
  · rw [translate_all_cached o2 subs _ hsome, ho]
    simp

theorem C10_markers_cached_and_stable_witness :
    (wbatch.map skey).Nodup ∧
    ((∀ it ∈ wbatch,
        ((translate_with_cache (fun _ _ => none) wbatch TMap.empty).cache (skey it)).isSome) ∧
     (translate_with_cache (fun _ _ => none) wbatch
        (translate_with_cache (fun _ _ => none) wbatch TMap.empty).cache).requests = [] ∧
     (translate_with_cache (fun _ _ => none) wbatch
        (translate_with_cache (fun _ _ => none) wbatch TMap.empty).cache).output
       = (translate_with_cache (fun _ _ => none) wbatch TMap.empty).output) :=
  ⟨by decide,
   C10_markers_cached_and_stable (fun _ _ => none) (fun _ _ => none) wbatch TMap.empty (by decide)⟩
